import Mathlib

/-!
Verification of the fancontrol repository's core components against its
natural-language specification.

The Rust source is shallowly embedded:
* machine integers (`u32`, `u8`) become `Nat` (the source never relies on
  wrap-around in the embedded code paths; overflow-relevant spots are noted);
* `f64` intermediates in `pwm_to_rpm` / `rpm_to_pwm` are modelled by exact
  rational arithmetic realised as truncating natural division, matching the
  truncation (`as u32` / `as u8`) performed by the source;
* fallible code returns `Except` / `Option`;
* `HashMap` state becomes association lists with explicit lookup / insert /
  erase operations;
* subprocess and hardware effects are modelled by explicit oracles plus a
  trace of the issued operations.
-/

namespace Fancontrol

/-! ## Error type (src/errors.rs and its uses)

`src/errors.rs` declares `FanControlError` with variants `FanNotFound`,
`NotControllable`, `PwmOutOfRange`, `PermissionDenied`, `Platform`, `Io`.
`src/platform/mod.rs` additionally constructs `FanControlError::InvalidCurve`,
a variant absent from the declaration in `src/errors.rs`.  The embedding keeps
both: the inductive below is the union of declared and constructed variants
(so that `validate_curve` can be embedded at all), and
`errorsRsVariants` records exactly the variant list declared in
`src/errors.rs` lines 3–22, so the mismatch itself is provable. -/

inductive FanControlError where
  | FanNotFound (id : String)
  | NotControllable (id : String)
  | PwmOutOfRange (value : Nat)
  | InvalidCurve (msg : String)
  | PermissionDenied (msg : String)
  | Platform (msg : String)
  | IoError (msg : String)
deriving DecidableEq

/-- Variant names of `FanControlError` exactly as declared in
`src/errors.rs` lines 3–22. -/
def errorsRsVariants : List String :=
  ["FanNotFound", "NotControllable", "PwmOutOfRange",
   "PermissionDenied", "Platform", "Io"]

/-- The variant name of a constructed error value. -/
def FanControlError.variantName : FanControlError → String
  | .FanNotFound _ => "FanNotFound"
  | .NotControllable _ => "NotControllable"
  | .PwmOutOfRange _ => "PwmOutOfRange"
  | .InvalidCurve _ => "InvalidCurve"
  | .PermissionDenied _ => "PermissionDenied"
  | .Platform _ => "Platform"
  | .IoError _ => "Io"

/-- The `thiserror`-derived `Display` message of each error
(src/errors.rs attribute strings; `Io` is `transparent`). -/
def FanControlError.message : FanControlError → String
  | .FanNotFound id => "fan '" ++ id ++ "' not found"
  | .NotControllable id => "fan '" ++ id ++ "' is not controllable"
  | .PwmOutOfRange v => "pwm value " ++ toString v ++ " out of range (0–255)"
  | .InvalidCurve m => "invalid curve: " ++ m
  | .PermissionDenied m => "permission denied: " ++ m
  | .Platform m => "platform error: " ++ m
  | .IoError m => m

/-! ## Domain model (src/fan.rs)

`src/fan.rs`'s `Fan` struct is a stale snapshot: every other file
(`lenovo.rs`, `windows.rs`, `main.rs`, `gui.rs`) reads or writes a
`full_speed_active` field that `fan.rs` does not declare.  The embedding
includes the field, as constructed by `parse_fan_line` in
`src/platform/lenovo.rs` lines 156–166. -/

structure FanCurvePoint where
  temperature : Nat
  fan_speed : Nat
deriving DecidableEq

structure FanCurve where
  fan_id : Nat
  sensor_id : Nat
  min_speed : Nat
  max_speed : Nat
  min_temp : Nat
  max_temp : Nat
  points : List FanCurvePoint
  active : Bool
deriving DecidableEq

structure Fan where
  id : String
  label : String
  speed_rpm : Nat
  pwm : Option Nat
  controllable : Bool
  min_rpm : Option Nat
  max_rpm : Option Nat
  curves : List FanCurve
  full_speed_active : Bool
deriving DecidableEq

/-! ## Curve validator (src/platform/mod.rs lines 19–70) -/

/-- First point (with its index) whose temperature exceeds 150, mirroring the
`for (i, point) in curve.points.iter().enumerate()` loop. -/
def findHighTemp : Nat → List FanCurvePoint → Option (Nat × Nat)
  | _, [] => none
  | i, p :: ps =>
      if 150 < p.temperature then some (i, p.temperature)
      else findHighTemp (i + 1) ps

/-- First adjacent pair whose temperatures are not strictly increasing,
returning the index of the second element of the pair, mirroring the
`for i in 1..curve.points.len()` temperature loop. -/
def findTempViolation : Nat → List FanCurvePoint → Option (Nat × FanCurvePoint × FanCurvePoint)
  | i, p :: q :: ps =>
      if q.temperature ≤ p.temperature then some (i + 1, p, q)
      else findTempViolation (i + 1) (q :: ps)
  | _, _ => none

/-- First adjacent pair whose fan speed decreases, returning the index of the
second element of the pair, mirroring the speed loop. -/
def findSpeedViolation : Nat → List FanCurvePoint → Option (Nat × FanCurvePoint × FanCurvePoint)
  | i, p :: q :: ps =>
      if q.fan_speed < p.fan_speed then some (i + 1, p, q)
      else findSpeedViolation (i + 1) (q :: ps)
  | _, _ => none

/-- `validate_curve` from src/platform/mod.rs lines 19–70, including the exact
error message text built by the source's `format!` calls. -/
def validate_curve (curve : FanCurve) : Except FanControlError Unit :=
  if curve.points.length < 2 then
    .error (.InvalidCurve "curve must have at least 2 points")
  else
    match findHighTemp 0 curve.points with
    | some (i, t) =>
        .error (.InvalidCurve
          ("point " ++ toString i ++ " has unreasonable temperature "
            ++ toString t ++ "°C (max 150)"))
    | none =>
      match findTempViolation 0 curve.points with
      | some (i, p, q) =>
          .error (.InvalidCurve
            ("temperatures must be strictly increasing: " ++ toString q.temperature
              ++ "°C at point " ++ toString i ++ " is not greater than "
              ++ toString p.temperature ++ "°C at point " ++ toString (i - 1)))
      | none =>
        match findSpeedViolation 0 curve.points with
        | some (_, p, q) =>
            .error (.InvalidCurve
              ("fan speed must not decrease as temperature rises: "
                ++ toString q.fan_speed ++ " RPM at " ++ toString q.temperature
                ++ "°C is less than " ++ toString p.fan_speed ++ " RPM at "
                ++ toString p.temperature ++ "°C"))
        | none =>
          if 0 < curve.max_speed then
            match curve.points.getLast? with
            | some last =>
                if last.fan_speed < curve.max_speed / 2 then
                  .error (.InvalidCurve
                    ("highest temperature point (" ++ toString last.temperature
                      ++ "°C) has only " ++ toString last.fan_speed
                      ++ " RPM; must be at least " ++ toString (curve.max_speed / 2)
                      ++ " RPM (50% of max " ++ toString curve.max_speed ++ ")"))
                else .ok ()
            | none => .ok ()
          else .ok ()

/-- The five curve invariants stated by the specification (§3). -/
def CurveInvariants (c : FanCurve) : Prop :=
  2 ≤ c.points.length ∧
  (∀ p ∈ c.points, p.temperature ≤ 150) ∧
  c.points.Chain' (fun p q => p.temperature < q.temperature) ∧
  c.points.Chain' (fun p q => p.fan_speed ≤ q.fan_speed) ∧
  (0 < c.max_speed → ∀ l ∈ c.points.getLast?, c.max_speed / 2 ≤ l.fan_speed)

/-- The flat curve from the specification's acceptance tests:
`[(50,3000),(60,3000),(70,3000)]` with `max_speed = 3000`. -/
def flatCurve : FanCurve :=
  { fan_id := 0, sensor_id := 3, min_speed := 3000, max_speed := 3000,
    min_temp := 50, max_temp := 70,
    points := [⟨50, 3000⟩, ⟨60, 3000⟩, ⟨70, 3000⟩], active := true }

/-- A single-point curve, rejected by the validator. -/
def singlePointCurve : FanCurve :=
  { fan_id := 0, sensor_id := 3, min_speed := 1600, max_speed := 4800,
    min_temp := 50, max_temp := 50,
    points := [⟨50, 1600⟩], active := true }

deriving instance DecidableEq for Except

lemma findHighTemp_eq_none (ps : List FanCurvePoint) :
    ∀ i, findHighTemp i ps = none ↔ ∀ p ∈ ps, p.temperature ≤ 150 := by
  induction ps with
  | nil => intro i; simp [findHighTemp]
  | cons p ps ih =>
    intro i
    by_cases h : 150 < p.temperature
    · simp only [findHighTemp, if_pos h]
      constructor
      · intro hc; cases hc
      · intro hall; exact absurd (hall p (List.mem_cons_self p ps)) (by omega)
    · simp only [findHighTemp, if_neg h, ih, List.mem_cons]
      constructor
      · intro hall q hq
        rcases hq with rfl | hq
        · omega
        · exact hall q hq
      · intro hall q hq; exact hall q (Or.inr hq)

lemma findTempViolation_eq_none (ps : List FanCurvePoint) :
    ∀ i, findTempViolation i ps = none ↔
      ps.Chain' (fun a b => a.temperature < b.temperature) := by
  induction ps with
  | nil => intro i; simp [findTempViolation]
  | cons p ps ih =>
    intro i
    cases ps with
    | nil => simp [findTempViolation]
    | cons q ps' =>
      rw [List.chain'_cons]
      by_cases h : q.temperature ≤ p.temperature
      · simp only [findTempViolation, if_pos h]
        constructor
        · intro hc; cases hc
        · intro hc; omega
      · simp only [findTempViolation, if_neg h, ih]
        constructor
        · intro hc; exact ⟨by omega, hc⟩
        · intro hc; exact hc.2

lemma findSpeedViolation_eq_none (ps : List FanCurvePoint) :
    ∀ i, findSpeedViolation i ps = none ↔
      ps.Chain' (fun a b => a.fan_speed ≤ b.fan_speed) := by
  induction ps with
  | nil => intro i; simp [findSpeedViolation]
  | cons p ps ih =>
    intro i
    cases ps with
    | nil => simp [findSpeedViolation]
    | cons q ps' =>
      rw [List.chain'_cons]
      by_cases h : q.fan_speed < p.fan_speed
      · simp only [findSpeedViolation, if_pos h]
        constructor
        · intro hc; cases hc
        · intro hc; omega
      · simp only [findSpeedViolation, if_neg h, ih]
        constructor
        · intro hc; exact ⟨by omega, hc⟩
        · intro hc; exact hc.2

/-- **C1.** `validate_curve` succeeds exactly when the five curve invariants
hold (at least two points, all temperatures ≤ 150, strictly increasing
temperatures, non-decreasing speeds, and — when `max_speed > 0` — a last-point
speed of at least `max_speed / 2`); every failure is an `InvalidCurve` error
(whose message text, embedded verbatim in `validate_curve`, names the violated
invariant and the offending point index); and the flat curve
`[(50,3000),(60,3000),(70,3000)]` with `max_speed = 3000` is accepted. -/
theorem validate_curve_ok_iff_invariants :
    (∀ c : FanCurve, validate_curve c = .ok () ↔ CurveInvariants c)
    ∧ (∀ c : FanCurve, ∀ e, validate_curve c = .error e →
        ∃ msg, e = FanControlError.InvalidCurve msg)
    ∧ validate_curve flatCurve = .ok () := by
  refine ⟨?_, ?_, by decide⟩
  · intro c
    unfold validate_curve CurveInvariants
    by_cases hlen : c.points.length < 2
    · simp only [if_pos hlen]
      constructor
      · intro hc; cases hc
      · intro hc; omega
    · simp only [if_neg hlen]
      cases hht : findHighTemp 0 c.points with
      | some v =>
        obtain ⟨i, t⟩ := v
        simp only
        constructor
        · intro hc; cases hc
        · intro hc
          have := (findHighTemp_eq_none c.points 0).mpr hc.2.1
          rw [hht] at this; cases this
      | none =>
        have htemp := (findHighTemp_eq_none c.points 0).mp hht
        cases htv : findTempViolation 0 c.points with
        | some v =>
          obtain ⟨i, p, q⟩ := v
          simp only
          constructor
          · intro hc; cases hc
          · intro hc
            have := (findTempViolation_eq_none c.points 0).mpr hc.2.2.1
            rw [htv] at this; cases this
        | none =>
          have hchain := (findTempViolation_eq_none c.points 0).mp htv
          cases hsv : findSpeedViolation 0 c.points with
          | some v =>
            obtain ⟨i, p, q⟩ := v
            simp only
            constructor
            · intro hc; cases hc
            · intro hc
              have := (findSpeedViolation_eq_none c.points 0).mpr hc.2.2.2.1
              rw [hsv] at this; cases this
          | none =>
            have hspeed := (findSpeedViolation_eq_none c.points 0).mp hsv
            by_cases hms : 0 < c.max_speed
            · simp only [if_pos hms]
              cases hl : c.points.getLast? with
              | none =>
                rw [List.getLast?_eq_none_iff] at hl
                simp [hl] at hlen
              | some last =>
                by_cases hsafe : last.fan_speed < c.max_speed / 2
                · simp only [if_pos hsafe]
                  constructor
                  · intro hc; cases hc
                  · intro hc
                    have := hc.2.2.2.2 hms last (Option.mem_def.mpr rfl)
                    omega
                · simp only [if_neg hsafe]
                  constructor
                  · intro _
                    refine ⟨by omega, htemp, hchain, hspeed, ?_⟩
                    intro _ l hml
                    have hle : last = l := Option.some.inj (Option.mem_def.mp hml)
                    rw [← hle]
                    omega
                  · intro _; trivial
            · simp only [if_neg hms]
              constructor
              · intro _
                refine ⟨by omega, htemp, hchain, hspeed, ?_⟩
                intro h0; omega
              · intro _; trivial
  · intro c e h
    unfold validate_curve at h
    split at h
    · cases h; exact ⟨_, rfl⟩
    · split at h
      · cases h; exact ⟨_, rfl⟩
      · split at h
        · cases h; exact ⟨_, rfl⟩
        · split at h
          · cases h; exact ⟨_, rfl⟩
          · split at h
            · split at h
              · split at h
                · cases h; exact ⟨_, rfl⟩
                · cases h
              · cases h
            · cases h

/-- Witness for `validate_curve_ok_iff_invariants`: applied at the concrete
flat curve and at a concrete single-point rejection. -/
theorem validate_curve_ok_iff_invariants_witness :
    CurveInvariants flatCurve
    ∧ ∃ msg, FanControlError.InvalidCurve "curve must have at least 2 points"
        = FanControlError.InvalidCurve msg :=
  ⟨(validate_curve_ok_iff_invariants.1 flatCurve).mp (by decide),
   validate_curve_ok_iff_invariants.2.1 singlePointCurve _ (by decide)⟩

/-! ## PWM↔RPM interpolator (src/platform/lenovo.rs lines 44–60)

The source computes `min_rpm + ((pwm as f64 / 255.0) * (max_rpm - min_rpm) as f64) as u32`
and `((rpm - min_rpm) as f64 / (max_rpm - min_rpm) as f64 * 255.0) as u8`.
The `f64` intermediates are modelled by exact arithmetic, with the final
truncating cast rendered as truncating natural division. -/

/-- `pwm_to_rpm` from src/platform/lenovo.rs lines 45–48. -/
def pwm_to_rpm (min_rpm max_rpm : Nat) (pwm : Nat) : Nat :=
  min_rpm + pwm * (max_rpm - min_rpm) / 255

/-- `rpm_to_pwm` from src/platform/lenovo.rs lines 51–60. -/
def rpm_to_pwm (min_rpm max_rpm : Nat) (rpm : Nat) : Nat :=
  if rpm ≤ min_rpm then 0
  else if max_rpm ≤ rpm then 255
  else 255 * (rpm - min_rpm) / (max_rpm - min_rpm)

/-- **C3.** For ranges with `0 < min_rpm < max_rpm`: `pwm_to_rpm` maps PWM 0 to
`min_rpm` and PWM 255 to `max_rpm`, and `rpm_to_pwm` clamps every
`rpm ≤ min_rpm` to 0 and every `rpm ≥ max_rpm` to 255. -/
theorem pwm_rpm_endpoints_and_clamp (min_rpm max_rpm : Nat)
    (h0 : 0 < min_rpm) (hlt : min_rpm < max_rpm) :
    pwm_to_rpm min_rpm max_rpm 0 = min_rpm
    ∧ pwm_to_rpm min_rpm max_rpm 255 = max_rpm
    ∧ (∀ rpm, rpm ≤ min_rpm → rpm_to_pwm min_rpm max_rpm rpm = 0)
    ∧ (∀ rpm, max_rpm ≤ rpm → rpm_to_pwm min_rpm max_rpm rpm = 255) := by
  refine ⟨?_, ?_, ?_, ?_⟩
  · simp [pwm_to_rpm]
  · have h255 : 255 * (max_rpm - min_rpm) / 255 = max_rpm - min_rpm :=
      Nat.mul_div_cancel_left _ (by norm_num)
    simp only [pwm_to_rpm, h255]
    omega
  · intro rpm h
    simp [rpm_to_pwm, h]
  · intro rpm h
    have h1 : ¬ rpm ≤ min_rpm := by omega
    simp [rpm_to_pwm, h1, h]

/-- Witness for `pwm_rpm_endpoints_and_clamp` at the default Lenovo range
`1600–4800` RPM. -/
theorem pwm_rpm_endpoints_and_clamp_witness :
    pwm_to_rpm 1600 4800 0 = 1600 ∧ pwm_to_rpm 1600 4800 255 = 4800
    ∧ rpm_to_pwm 1600 4800 1000 = 0 ∧ rpm_to_pwm 1600 4800 9999 = 255 := by
  obtain ⟨h1, h2, h3, h4⟩ :=
    pwm_rpm_endpoints_and_clamp 1600 4800 (by decide) (by decide)
  exact ⟨h1, h2, h3 1000 (by decide), h4 9999 (by decide)⟩

/-- **C2, counterexample.** The claimed round-trip bound fails as stated: for
the valid range `min_rpm = 1, max_rpm = 101` (so `0 < min_rpm < max_rpm`) and
`pwm = 2 ∈ [0,255]`, the round trip returns 0, which differs from 2 by 2. -/
theorem pwm_roundtrip_counterexample :
    0 < 1 ∧ 1 < 101 ∧ 2 ≤ 255
    ∧ ((rpm_to_pwm 1 101 (pwm_to_rpm 1 101 2) : Int) - 2).natAbs = 2 := by
  decide

/-- **C2, amended.** The round trip `rpm_to_pwm ∘ pwm_to_rpm` differs from the
original `pwm` by at most 1, for every range with `0 < min_rpm < max_rpm`
whose span `max_rpm - min_rpm` is at least 255, and every `pwm ∈ [0,255]`. -/
theorem pwm_roundtrip_within_one (min_rpm max_rpm pwm : Nat)
    (h0 : 0 < min_rpm) (hlt : min_rpm < max_rpm) (hpwm : pwm ≤ 255)
    (hspan : 255 ≤ max_rpm - min_rpm) :
    ((rpm_to_pwm min_rpm max_rpm (pwm_to_rpm min_rpm max_rpm pwm) : Int) - pwm).natAbs ≤ 1 := by
  set d := max_rpm - min_rpm with hd
  set s := pwm * d / 255 with hs
  have hdpos : 0 < d := by omega
  have hrpm : pwm_to_rpm min_rpm max_rpm pwm = min_rpm + s := rfl
  rw [hrpm]
  unfold rpm_to_pwm
  by_cases hlo : min_rpm + s ≤ min_rpm
  · -- s = 0, which forces pwm = 0 since d ≥ 255
    have hs0 : s = 0 := by omega
    have : pwm * d < 255 := by
      by_contra hge
      have : 1 ≤ pwm * d / 255 := (Nat.one_le_div_iff (by norm_num)).mpr (by omega)
      omega
    have hp0 : pwm = 0 := by
      rcases Nat.eq_zero_or_pos pwm with h | h
      · exact h
      · exfalso; nlinarith
    simp [hlo, hp0]
  · simp only [if_neg hlo]
    by_cases hhi : max_rpm ≤ min_rpm + s
    · -- s ≥ d, which forces pwm = 255
      have hsd : d ≤ s := by omega
      have h255d : 255 * d ≤ pwm * d := by
        have := (Nat.le_div_iff_mul_le (by norm_num : 0 < 255)).mp (hs ▸ hsd)
        omega
      have hp : pwm = 255 := by
        have : 255 ≤ pwm := Nat.le_of_mul_le_mul_right (by omega) hdpos
        omega
      simp [hhi, hp]
    · simp only [if_neg hhi]
      have hsub : min_rpm + s - min_rpm = s := by omega
      rw [hsub, ← hd]
      -- exact division bookkeeping: 255 * s = pwm * d - r with r = (pwm*d) % 255
      have hdm := Nat.div_add_mod (pwm * d) 255
      set r := pwm * d % 255 with hr
      have hrlt : r < 255 := Nat.mod_lt _ (by norm_num)
      have h255s : 255 * s = pwm * d - r := by omega
      have hq_le : 255 * s / d ≤ pwm := by
        have h1 : 255 * s ≤ pwm * d := by omega
        calc 255 * s / d ≤ pwm * d / d := Nat.div_le_div_right h1
          _ = pwm := Nat.mul_div_cancel _ hdpos
      have hq_ge : pwm - 1 ≤ 255 * s / d := by
        have h1 : (pwm - 1) * d ≤ 255 * s := by
          have : r ≤ d := by omega
          cases Nat.eq_zero_or_pos pwm with
          | inl h => simp [h]
          | inr h =>
            have : (pwm - 1) * d = pwm * d - d := by
              cases pwm with
              | zero => omega
              | succ n => simp [Nat.succ_sub_one, Nat.succ_mul]
            omega
        exact (Nat.le_div_iff_mul_le hdpos).mpr h1
      omega

/-- Witness for `pwm_roundtrip_within_one` at the default Lenovo range
`1600–4800` (span 3200 ≥ 255) and `pwm = 100`, the source's own unit-test
input. -/
theorem pwm_roundtrip_within_one_witness :
    ((rpm_to_pwm 1600 4800 (pwm_to_rpm 1600 4800 100) : Int) - 100).natAbs ≤ 1 :=
  pwm_roundtrip_within_one 1600 4800 100 (by decide) (by decide) (by decide) (by decide)

/-! ## Vendor table parser (src/platform/lenovo.rs lines 62–167)

String primitives are embedded over `List Char` so that everything reduces in
the kernel:
* `splitOnChar` models Rust `str::split(char)` (empty input yields one empty
  piece; a trailing separator yields a trailing empty piece);
* `trimChars` models `str::trim`;
* `parseU32` models `str::parse::<u32>()` (optional leading `+`, one or more
  ASCII digits, value below `2^32`);
* `stripTag` models `str::strip_prefix` / `str::starts_with` for a literal
  tag;
* `rustLines` models `str::lines` (split on `'\n'`, drop a final empty piece,
  strip a trailing `'\r'` from each line). -/

def splitOnChar (sep : Char) : List Char → List (List Char)
  | [] => [[]]
  | c :: cs =>
    let r := splitOnChar sep cs
    if c = sep then [] :: r
    else
      match r with
      | [] => [[c]]
      | h :: t => (c :: h) :: t

def trimChars (cs : List Char) : List Char :=
  ((cs.dropWhile Char.isWhitespace).reverse.dropWhile Char.isWhitespace).reverse

def digitsVal (cs : List Char) : Nat :=
  cs.foldl (fun acc c => acc * 10 + (c.toNat - '0'.toNat)) 0

def parseU32 (cs : List Char) : Option Nat :=
  let ds := match cs with
    | '+' :: rest => rest
    | _ => cs
  if ds.isEmpty then none
  else if ds.all Char.isDigit then
    let n := digitsVal ds
    if n < 2 ^ 32 then some n else none
  else none

/-- `s.trim().parse::<u32>().ok()` -/
def parseU32Trim (cs : List Char) : Option Nat :=
  parseU32 (trimChars cs)

/-- `s.trim().parse::<u32>().unwrap_or(0)` -/
def parseU32TrimD (cs : List Char) : Nat :=
  (parseU32Trim cs).getD 0

/-- `field.split(',').filter_map(|s| s.trim().parse::<u32>().ok()).collect()` -/
def parseCsvU32 (cs : List Char) : List Nat :=
  (splitOnChar ',' cs).filterMap parseU32Trim

def stripTag : List Char → List Char → Option (List Char)
  | [], cs => some cs
  | _ :: _, [] => none
  | t :: ts, c :: cs => if c = t then stripTag ts cs else none

def tableTag : List Char := ['T', 'A', 'B', 'L', 'E', '|']
def fanTag : List Char := ['F', 'A', 'N', '|']
def fullspeedTag : List Char := ['F', 'U', 'L', 'L', 'S', 'P', 'E', 'E', 'D', '|']

def rustLines (s : String) : List String :=
  let raw := splitOnChar '\n' s.data
  let raw' := if raw.getLast? = some [] then raw.dropLast else raw
  raw'.map fun l =>
    String.mk (if l.getLast? = some '\r' then l.dropLast else l)

/-- Per-fan RPM range learned from table data
(src/platform/lenovo.rs lines 26–30). -/
structure FanRpmRange where
  min_rpm : Nat
  max_rpm : Nat
deriving DecidableEq

/-- src/platform/lenovo.rs lines 22–23. -/
def DEFAULT_MIN_RPM : Nat := 1600
def DEFAULT_MAX_RPM : Nat := 4800

/-- `parse_fullspeed` from src/platform/lenovo.rs lines 63–70, expressed over
an already-split line list (`parse_fullspeed` composes it with `rustLines`). -/
def parse_fullspeed_lines : List String → Bool
  | [] => false
  | l :: ls =>
    match stripTag fullspeedTag l.data with
    | some v => trimChars v == ['1']
    | none => parse_fullspeed_lines ls

def parse_fullspeed (output : String) : Bool :=
  parse_fullspeed_lines (rustLines output)

/-- `parse_table_line` from src/platform/lenovo.rs lines 75–123. -/
def parse_table_line (line : String) : Option (FanCurve × FanRpmRange) :=
  let parts := splitOnChar '|' line.data
  if parts.length < 10 then none
  else
    let fan_id := parseU32TrimD (parts.getD 1 [])
    let sensor_id := parseU32TrimD (parts.getD 2 [])
    let active := trimChars (parts.getD 3 []) == ['1']
    let min_speed := parseU32TrimD (parts.getD 4 [])
    let max_speed := parseU32TrimD (parts.getD 5 [])
    let min_temp := parseU32TrimD (parts.getD 6 [])
    let max_temp := parseU32TrimD (parts.getD 7 [])
    let speeds := parseCsvU32 (parts.getD 8 [])
    let temps := parseCsvU32 (parts.getD 9 [])
    let point_count := min speeds.length temps.length
    let points := (List.range point_count).map fun i =>
      FanCurvePoint.mk (temps.getD i 0) (speeds.getD i 0)
    some ({ fan_id, sensor_id, min_speed, max_speed, min_temp, max_temp,
            points, active },
          { min_rpm := min_speed, max_rpm := max_speed })

/-- `parse_fan_line` from src/platform/lenovo.rs lines 128–167.  The
`&mut HashMap` of curves (from which the fan's curves are `remove`d) is
threaded explicitly: the function returns the updated map alongside the
optional `Fan`. -/
def parse_fan_line (line : String) (rpm_ranges : List (Nat × FanRpmRange))
    (curves_by_fan : List (Nat × List FanCurve)) (full_speed_active : Bool) :
    Option Fan × List (Nat × List FanCurve) :=
  let parts := splitOnChar '|' line.data
  if parts.length < 5 then (none, curves_by_fan)
  else
    let fan_id := parseU32TrimD (parts.getD 1 [])
    let speed_rpm := parseU32TrimD (parts.getD 3 [])
    let temp := parseU32TrimD (parts.getD 4 [])
    let label :=
      if fan_id = 0 then "CPU Fan"
      else if fan_id = 1 then "GPU Fan"
      else "Fan " ++ toString fan_id
    let range := rpm_ranges.lookup fan_id
    let min_rpm := (range.map FanRpmRange.min_rpm).getD DEFAULT_MIN_RPM
    let max_rpm := (range.map FanRpmRange.max_rpm).getD DEFAULT_MAX_RPM
    let curves := (curves_by_fan.lookup fan_id).getD []
    (some { id := "fan" ++ toString fan_id,
            label := label ++ " (" ++ toString temp ++ "°C)",
            speed_rpm,
            pwm := some (rpm_to_pwm min_rpm max_rpm speed_rpm),
            controllable := true,
            min_rpm := range.map FanRpmRange.min_rpm,
            max_rpm := range.map FanRpmRange.max_rpm,
            curves,
            full_speed_active },
     curves_by_fan.filter fun p => p.1 != fan_id)

lemma getD_range_map {α : Type} (f : Nat → α) (n i : Nat) (d : α) (h : i < n) :
    ((List.range n).map f).getD i d = f i := by
  rw [List.getD_eq_getElem?_getD, List.getElem?_map, List.getElem?_range h]
  rfl

/-- What `parse_table_line` produces on a line with at least 10 fields:
point `i` pairs the `i`-th successfully parsed temperature with the `i`-th
successfully parsed speed, the point count being the minimum of the two
parsed-list lengths. -/
lemma parse_table_line_points (line : String)
    (h : 10 ≤ (splitOnChar '|' line.data).length) :
    ∃ c r, parse_table_line line = some (c, r) ∧
      c.points.length =
        min (parseCsvU32 ((splitOnChar '|' line.data).getD 8 [])).length
            (parseCsvU32 ((splitOnChar '|' line.data).getD 9 [])).length ∧
      (∀ i, i < c.points.length →
        c.points.getD i ⟨0, 0⟩ =
          ⟨(parseCsvU32 ((splitOnChar '|' line.data).getD 9 [])).getD i 0,
           (parseCsvU32 ((splitOnChar '|' line.data).getD 8 [])).getD i 0⟩) ∧
      c.active = (trimChars ((splitOnChar '|' line.data).getD 3 []) == ['1']) := by
  have hn : ¬ (splitOnChar '|' line.data).length < 10 := by omega
  refine
    ⟨{ fan_id := parseU32TrimD ((splitOnChar '|' line.data).getD 1 []),
       sensor_id := parseU32TrimD ((splitOnChar '|' line.data).getD 2 []),
       min_speed := parseU32TrimD ((splitOnChar '|' line.data).getD 4 []),
       max_speed := parseU32TrimD ((splitOnChar '|' line.data).getD 5 []),
       min_temp := parseU32TrimD ((splitOnChar '|' line.data).getD 6 []),
       max_temp := parseU32TrimD ((splitOnChar '|' line.data).getD 7 []),
       points := (List.range
           (min (parseCsvU32 ((splitOnChar '|' line.data).getD 8 [])).length
                (parseCsvU32 ((splitOnChar '|' line.data).getD 9 [])).length)).map
         fun i =>
           FanCurvePoint.mk
             ((parseCsvU32 ((splitOnChar '|' line.data).getD 9 [])).getD i 0)
             ((parseCsvU32 ((splitOnChar '|' line.data).getD 8 [])).getD i 0),
       active := trimChars ((splitOnChar '|' line.data).getD 3 []) == ['1'] },
     { min_rpm := parseU32TrimD ((splitOnChar '|' line.data).getD 4 []),
       max_rpm := parseU32TrimD ((splitOnChar '|' line.data).getD 5 []) },
     ?_, ?_, ?_, rfl⟩
  · unfold parse_table_line
    rw [if_neg hn]
  · simp [List.length_map, List.length_range]
  · intro i hi
    simp only [List.length_map, List.length_range] at hi
    exact getD_range_map _ _ _ _ hi

/-- The well-formed TABLE line from the specification's tests. -/
def exampleTableLine : String :=
  "TABLE|0|3|1|1600|4800|58|100|1600,2100,2700,3400,4200,4800|58,63,68,73,85,100"

/-- A TABLE line whose speeds CSV has one garbled entry (`xx`). -/
def garbledTableLine : String :=
  "TABLE|0|3|1|1600|4800|58|100|1600,xx,2700|58,63,68"

/-- **C4.** Every TABLE line with at least 10 pipe-delimited fields parses to a
curve pairing the `i`-th parsed temperature with the `i`-th parsed speed, with
point count the minimum of the two parsed-list lengths (trailing unmatched
values dropped); the specification's example line yields 6 points,
`active = true`, first point `(58,1600)`, last point `(100,4800)`. -/
theorem parse_table_line_pairs_positionally :
    (∀ line : String, 10 ≤ (splitOnChar '|' line.data).length →
      ∃ c r, parse_table_line line = some (c, r) ∧
        c.points.length =
          min (parseCsvU32 ((splitOnChar '|' line.data).getD 8 [])).length
              (parseCsvU32 ((splitOnChar '|' line.data).getD 9 [])).length ∧
        ∀ i, i < c.points.length →
          c.points.getD i ⟨0, 0⟩ =
            ⟨(parseCsvU32 ((splitOnChar '|' line.data).getD 9 [])).getD i 0,
             (parseCsvU32 ((splitOnChar '|' line.data).getD 8 [])).getD i 0⟩)
    ∧ (parse_table_line exampleTableLine).map
        (fun p => (p.1.points.length, p.1.active, p.1.points.head?, p.1.points.getLast?))
      = some (6, true, some ⟨58, 1600⟩, some ⟨100, 4800⟩) := by
  constructor
  · intro line h
    obtain ⟨c, r, h1, h2, h3, _⟩ := parse_table_line_points line h
    exact ⟨c, r, h1, h2, h3⟩
  · decide

/-- Witness for `parse_table_line_pairs_positionally`, applying its universal
part to the concrete example line. -/
theorem parse_table_line_pairs_positionally_witness :
    10 ≤ (splitOnChar '|' exampleTableLine.data).length
    ∧ ∃ c r, parse_table_line exampleTableLine = some (c, r) ∧
        c.points.length =
          min (parseCsvU32 ((splitOnChar '|' exampleTableLine.data).getD 8 [])).length
              (parseCsvU32 ((splitOnChar '|' exampleTableLine.data).getD 9 [])).length ∧
        ∀ i, i < c.points.length →
          c.points.getD i ⟨0, 0⟩ =
            ⟨(parseCsvU32 ((splitOnChar '|' exampleTableLine.data).getD 9 [])).getD i 0,
             (parseCsvU32 ((splitOnChar '|' exampleTableLine.data).getD 8 [])).getD i 0⟩ :=
  ⟨by decide, parse_table_line_pairs_positionally.1 exampleTableLine (by decide)⟩

/-- **C10.** Individually unparseable CSV entries are silently dropped and the
surviving entries are re-paired positionally: in general point `i` pairs the
`i`-th successfully parsed temperature with the `i`-th successfully parsed
speed, and on the concrete line whose speeds CSV is `1600,xx,2700` the line is
neither skipped nor an error — the speed `2700` (originally at comma position
2) is paired with the temperature `63` (comma position 1). -/
theorem garbled_csv_entry_shifts_pairing :
    (∀ line : String, 10 ≤ (splitOnChar '|' line.data).length →
      ∃ c r, parse_table_line line = some (c, r) ∧
        ∀ i, i < c.points.length →
          c.points.getD i ⟨0, 0⟩ =
            ⟨(parseCsvU32 ((splitOnChar '|' line.data).getD 9 [])).getD i 0,
             (parseCsvU32 ((splitOnChar '|' line.data).getD 8 [])).getD i 0⟩)
    ∧ (splitOnChar ',' ("1600,xx,2700".data)).length = 3
    ∧ parseCsvU32 ("1600,xx,2700".data) = [1600, 2700]
    ∧ (parse_table_line garbledTableLine).map
        (fun p => p.1.points.map fun q => (q.temperature, q.fan_speed))
      = some [(58, 1600), (63, 2700)] := by
  refine ⟨?_, by decide, by decide, by decide⟩
  intro line h
  obtain ⟨c, r, h1, _, h3, _⟩ := parse_table_line_points line h
  exact ⟨c, r, h1, h3⟩

/-- Witness for `garbled_csv_entry_shifts_pairing`, applying its universal
part to the concrete garbled line. -/
theorem garbled_csv_entry_shifts_pairing_witness :
    10 ≤ (splitOnChar '|' garbledTableLine.data).length
    ∧ ∃ c r, parse_table_line garbledTableLine = some (c, r) ∧
        ∀ i, i < c.points.length →
          c.points.getD i ⟨0, 0⟩ =
            ⟨(parseCsvU32 ((splitOnChar '|' garbledTableLine.data).getD 9 [])).getD i 0,
             (parseCsvU32 ((splitOnChar '|' garbledTableLine.data).getD 8 [])).getD i 0⟩ :=
  ⟨by decide, garbled_csv_entry_shifts_pairing.1 garbledTableLine (by decide)⟩

/-! ## The discover parsing pipeline (src/platform/lenovo.rs lines 276–335)

`discover` runs two passes over the subprocess output: a first pass over
`TABLE|`-prefixed lines building `curves_by_fan` and the widened per-fan RPM
ranges, and a second pass over `FAN|`-prefixed lines building the `Fan` list
(consuming each fan's curves from the map).  Both passes skip lines whose
parser returns `None`. -/

structure TableState where
  curves_by_fan : List (Nat × List FanCurve)
  rpm_ranges : List (Nat × FanRpmRange)

/-- `curves_by_fan.entry(fan_id).or_default().push(curve)` -/
def insertCurve : List (Nat × List FanCurve) → Nat → FanCurve → List (Nat × List FanCurve)
  | [], k, c => [(k, [c])]
  | (k', cs) :: rest, k, c =>
      if k' = k then (k', cs ++ [c]) :: rest
      else (k', cs) :: insertCurve rest k c

/-- `rpm_ranges.entry(fan_id).or_insert(range)` followed by widening to the
minimum of mins and maximum of maxes (src/platform/lenovo.rs lines 309–316). -/
def widenRange : List (Nat × FanRpmRange) → Nat → FanRpmRange → List (Nat × FanRpmRange)
  | [], k, r => [(k, r)]
  | (k', r') :: rest, k, r =>
      if k' = k then
        (k', ⟨min r'.min_rpm r.min_rpm, max r'.max_rpm r.max_rpm⟩) :: rest
      else (k', r') :: widenRange rest k r

/-- One first-pass iteration (src/platform/lenovo.rs lines 285–317):
non-`TABLE|` lines and unparseable `TABLE|` lines leave the state unchanged. -/
def tableStep (st : TableState) (line : String) : TableState :=
  if (stripTag tableTag line.data).isSome then
    match parse_table_line line with
    | none => st
    | some (curve, range) =>
        { curves_by_fan := insertCurve st.curves_by_fan curve.fan_id curve,
          rpm_ranges := widenRange st.rpm_ranges curve.fan_id range }
  else st

/-- One second-pass iteration (src/platform/lenovo.rs lines 323–333). -/
def fanStep (full_speed_active : Bool) (rpm_ranges : List (Nat × FanRpmRange))
    (acc : List Fan × List (Nat × List FanCurve)) (line : String) :
    List Fan × List (Nat × List FanCurve) :=
  if (stripTag fanTag line.data).isSome then
    match parse_fan_line line rpm_ranges acc.2 full_speed_active with
    | (none, m) => (acc.1, m)
    | (some fan, m) => (acc.1 ++ [fan], m)
  else acc

/-- The pure part of `discover` (src/platform/lenovo.rs lines 276–335),
over an already-split line list. -/
def parse_discover_lines (lines : List String) : List Fan :=
  (lines.foldl
    (fanStep (parse_fullspeed_lines lines)
      (lines.foldl tableStep ⟨[], []⟩).rpm_ranges)
    ([], (lines.foldl tableStep ⟨[], []⟩).curves_by_fan)).1

def parse_discover_output (output : String) : List Fan :=
  parse_discover_lines (rustLines output)

lemma stripTag_eq_some {tag cs t : List Char} (h : stripTag tag cs = some t) :
    cs = tag ++ t := by
  induction tag generalizing cs with
  | nil => simpa [stripTag] using h
  | cons a as ih =>
    cases cs with
    | nil => simp [stripTag] at h
    | cons c cs' =>
      by_cases hc : c = a
      · subst hc
        simp only [stripTag, if_pos rfl] at h
        simp [ih h]
      · simp [stripTag, hc] at h

lemma foldl_middle_skip {α β : Type} (f : β → α → β) (x : α)
    (hx : ∀ b, f b x = b) (pre post : List α) (init : β) :
    (pre ++ x :: post).foldl f init = (pre ++ post).foldl f init := by
  rw [List.foldl_append, List.foldl_cons, hx, ← List.foldl_append]

lemma parse_fullspeed_lines_skip (pre post : List String) (bad : String)
    (hb : stripTag fullspeedTag bad.data = none) :
    parse_fullspeed_lines (pre ++ bad :: post) = parse_fullspeed_lines (pre ++ post) := by
  induction pre with
  | nil => simp [parse_fullspeed_lines, hb]
  | cons l ls ih =>
    cases h : stripTag fullspeedTag l.data with
    | some v => simp [parse_fullspeed_lines, h]
    | none => simpa [parse_fullspeed_lines, h] using ih

lemma parse_discover_lines_skip (pre post : List String) (bad : String)
    (hfs : stripTag fullspeedTag bad.data = none)
    (htbl : ∀ st, tableStep st bad = st)
    (hfan : ∀ fs ranges acc, fanStep fs ranges acc bad = acc) :
    parse_discover_lines (pre ++ bad :: post) = parse_discover_lines (pre ++ post) := by
  unfold parse_discover_lines
  rw [parse_fullspeed_lines_skip pre post bad hfs,
      foldl_middle_skip tableStep bad htbl,
      foldl_middle_skip _ bad (hfan _ _)]

lemma stripTag_self_append (tag t : List Char) : stripTag tag (tag ++ t) = some t := by
  induction tag with
  | nil => simp [stripTag]
  | cons a as ih => simp [stripTag, ih]

/-- **C9.** A TABLE line with fewer than 10 pipe-delimited fields, or a FAN
line with fewer than 5, parses to nothing; and dropping such a line from a
discover stream leaves the parsed result unchanged — the stream parse never
fails, it returns whatever parsed cleanly from the remaining lines. -/
theorem malformed_vendor_lines_are_skipped :
    (∀ line : String, (splitOnChar '|' line.data).length < 10 →
        parse_table_line line = none)
    ∧ (∀ (line : String) ranges curves fs,
        (splitOnChar '|' line.data).length < 5 →
        parse_fan_line line ranges curves fs = (none, curves))
    ∧ (∀ (pre post : List String) (bad : String) (t : List Char),
        bad.data = tableTag ++ t →
        (splitOnChar '|' bad.data).length < 10 →
        parse_discover_lines (pre ++ bad :: post) = parse_discover_lines (pre ++ post))
    ∧ (∀ (pre post : List String) (bad : String) (t : List Char),
        bad.data = fanTag ++ t →
        (splitOnChar '|' bad.data).length < 5 →
        parse_discover_lines (pre ++ bad :: post) = parse_discover_lines (pre ++ post)) := by
  have h1 : ∀ line : String, (splitOnChar '|' line.data).length < 10 →
      parse_table_line line = none := by
    intro line h
    unfold parse_table_line
    rw [if_pos h]
  have h2 : ∀ (line : String) ranges curves fs,
      (splitOnChar '|' line.data).length < 5 →
      parse_fan_line line ranges curves fs = (none, curves) := by
    intro line ranges curves fs h
    unfold parse_fan_line
    rw [if_pos h]
  refine ⟨h1, h2, ?_, ?_⟩
  · intro pre post bad t hbad hlen
    apply parse_discover_lines_skip
    · rw [hbad]
      simp [tableTag, fullspeedTag, stripTag]
    · intro st
      simp [tableStep, h1 bad hlen]
    · intro fs ranges acc
      have hfan : stripTag fanTag bad.data = none := by
        rw [hbad]
        simp [tableTag, fanTag, stripTag]
      simp [fanStep, hfan]
  · intro pre post bad t hbad hlen
    apply parse_discover_lines_skip
    · rw [hbad]
      simp [fanTag, fullspeedTag, stripTag]
    · intro st
      have htbl : stripTag tableTag bad.data = none := by
        rw [hbad]
        simp [tableTag, fanTag, stripTag]
      simp [tableStep, htbl]
    · intro fs ranges acc
      have hs : stripTag fanTag bad.data = some t := by
        rw [hbad]
        exact stripTag_self_append _ _
      simp [fanStep, hs, h2 bad ranges acc.2 fs hlen]

/-- Witness for `malformed_vendor_lines_are_skipped`: a concrete discover
stream containing the short line `TABLE|0|3|1|1600` parses identically to the
stream without it. -/
theorem malformed_vendor_lines_are_skipped_witness :
    parse_discover_lines
      ["FULLSPEED|0", "TABLE|0|3|1|1600",
       "TABLE|0|3|1|1600|4800|58|100|1600,4800|58,100", "FAN|0|3|2100|45"]
    = parse_discover_lines
      ["FULLSPEED|0",
       "TABLE|0|3|1|1600|4800|58|100|1600,4800|58,100", "FAN|0|3|2100|45"] :=
  malformed_vendor_lines_are_skipped.2.2.1
    ["FULLSPEED|0"]
    ["TABLE|0|3|1|1600|4800|58|100|1600,4800|58,100", "FAN|0|3|2100|45"]
    "TABLE|0|3|1|1600" ("0|3|1|1600".data) (by decide) (by decide)

/-- **C5.** `validate_curve` (src/platform/mod.rs) constructs
`FanControlError::InvalidCurve`, yet the `FanControlError` enum declared in
src/errors.rs lines 3–22 has no `InvalidCurve` variant (it declares
`FanNotFound`, `NotControllable`, `PwmOutOfRange`, `PermissionDenied`,
`Platform`, `Io`): the declared taxonomy contradicts its own use in the same
crate. -/
theorem invalidcurve_used_but_not_declared :
    (∃ msg, validate_curve singlePointCurve
        = .error (FanControlError.InvalidCurve msg))
    ∧ FanControlError.variantName
        (FanControlError.InvalidCurve "curve must have at least 2 points")
      = "InvalidCurve"
    ∧ "InvalidCurve" ∉ errorsRsVariants
    ∧ "FanNotFound" ∈ errorsRsVariants
    ∧ "NotControllable" ∈ errorsRsVariants
    ∧ "PermissionDenied" ∈ errorsRsVariants
    ∧ "Platform" ∈ errorsRsVariants
    ∧ "Io" ∈ errorsRsVariants := by
  exact ⟨⟨"curve must have at least 2 points", by decide⟩, by decide, by decide,
    by decide, by decide, by decide, by decide, by decide⟩

/-! ## `set_fan_curve` (src/platform/lenovo.rs lines 436–478)

The PowerShell subprocess (`Self::ps_command`) is modelled as an oracle
`ps_command : String → Except FanControlError String`; alongside the
`Result`, the embedding returns the trace of scripts actually handed to the
subprocess — the hardware writes issued. -/

def set_fan_curve (ps_command : String → Except FanControlError String)
    (curve : FanCurve) : Except FanControlError Unit × List String :=
  match validate_curve curve with
  | .error e => (.error e, [])
  | .ok _ =>
    let speeds_csv :=
      String.intercalate "," (curve.points.map fun p => toString p.fan_speed)
    let temps_csv :=
      String.intercalate "," (curve.points.map fun p => toString p.temperature)
    let script :=
      "$fm = Get-WmiObject -Namespace root/WMI -Class LENOVO_FAN_METHOD; $speeds = @("
        ++ speeds_csv ++ "); $temps = @(" ++ temps_csv ++ "); $fm.Fan_Set_Table("
        ++ toString curve.fan_id ++ ", " ++ toString curve.sensor_id
        ++ ", $speeds, $temps)"
    match ps_command script with
    | .error e => (.error e, [script])
    | .ok _ => (.ok (), [script])

/-- **C6.** `set_fan_curve` validates the curve before any hardware write:
when validation fails the validation error is returned with an empty write
trace (no subprocess command issued), and any issued write implies the curve
passed validation. -/
theorem set_fan_curve_validates_before_write :
    (∀ (ps : String → Except FanControlError String) (curve : FanCurve)
        (e : FanControlError),
      validate_curve curve = .error e →
      set_fan_curve ps curve = (.error e, []))
    ∧ (∀ (ps : String → Except FanControlError String) (curve : FanCurve)
        (s : String), s ∈ (set_fan_curve ps curve).2 →
      validate_curve curve = .ok ()) := by
  constructor
  · intro ps curve e h
    unfold set_fan_curve
    rw [h]
  · intro ps curve s hs
    unfold set_fan_curve at hs
    cases h : validate_curve curve with
    | error e => rw [h] at hs; cases hs
    | ok u => cases u; rfl

/-- Witness for `set_fan_curve_validates_before_write`: a single-point curve
is rejected and no script reaches the (always-succeeding) subprocess
oracle. -/
theorem set_fan_curve_validates_before_write_witness :
    set_fan_curve (fun _ => .ok "") singlePointCurve
      = (.error (.InvalidCurve "curve must have at least 2 points"), []) :=
  set_fan_curve_validates_before_write.1 (fun _ => .ok "") singlePointCurve _ (by decide)

/-! ## The worker loop (src/gui.rs lines 28–165)

The worker owns the controller; the controller's three operations are an
oracle record.  `workerStep` is one iteration of the `loop` body
(src/gui.rs lines 96–160): it returns the trace of hardware operations
issued, the updated `held_pwm` map, and the responses sent. -/

inductive WorkerCommand where
  | Refresh
  | SetPwm (fan_id : String) (pwm : Nat)
  | SetCurve (curve : FanCurve)
deriving DecidableEq

inductive WorkerResponse where
  | FanData (fans : List Fan)
  | CurveData (curves : List (String × List FanCurve))
  | PwmSet (fan_id : String) (pwm : Nat)
  | CurveSet (fan_id : Nat) (sensor_id : Nat)
  | Error (msg : String)
deriving DecidableEq

structure WorkerController where
  set_pwm : String → Nat → Except FanControlError Unit
  discover : Unit → Except FanControlError (List Fan)
  set_fan_curve : FanCurve → Except FanControlError Unit

inductive HwOp where
  | setPwmOp (fan_id : String) (pwm : Nat)
  | discoverOp
  | setCurveOp (curve : FanCurve)
deriving DecidableEq

/-- `held_pwm.remove(&fan_id)` -/
def eraseKeyPwm (m : List (String × Nat)) (k : String) : List (String × Nat) :=
  m.filter fun p => p.1 != k

/-- `held_pwm.insert(fan_id, pwm)` -/
def insertPwm : List (String × Nat) → String → Nat → List (String × Nat)
  | [], k, v => [(k, v)]
  | (k', v') :: rest, k, v =>
      if k' = k then (k', v) :: rest else (k', v') :: insertPwm rest k v

/-- The `for (fan_id, pwm) in &held_pwm` re-apply loop (src/gui.rs lines
99–104).  The source's `if let Err(error) = controller.set_pwm(..)` only
logs the error, so both result branches continue identically with the next
entry. -/
def reapplyHeld (ctrl : WorkerController) : List (String × Nat) → List HwOp
  | [] => []
  | (fan_id, pwm) :: rest =>
    match ctrl.set_pwm fan_id pwm with
    | .ok _ => HwOp.setPwmOp fan_id pwm :: reapplyHeld ctrl rest
    | .error _ => HwOp.setPwmOp fan_id pwm :: reapplyHeld ctrl rest

/-- One iteration of the worker `loop` body (src/gui.rs lines 96–160). -/
def workerStep (ctrl : WorkerController) (held_pwm : List (String × Nat)) :
    WorkerCommand → List HwOp × List (String × Nat) × List WorkerResponse
  | .Refresh =>
    let ops := reapplyHeld ctrl held_pwm
    match ctrl.discover () with
    | .ok fans => (ops ++ [.discoverOp], held_pwm, [.FanData fans])
    | .error e => (ops ++ [.discoverOp], held_pwm, [.Error e.message])
  | .SetPwm fan_id pwm =>
    match ctrl.set_pwm fan_id pwm with
    | .ok _ =>
      let held :=
        if pwm = 0 then eraseKeyPwm held_pwm fan_id
        else insertPwm held_pwm fan_id pwm
      ([.setPwmOp fan_id pwm], held, [.PwmSet fan_id pwm])
    | .error e => ([.setPwmOp fan_id pwm], held_pwm, [.Error e.message])
  | .SetCurve curve =>
    match ctrl.set_fan_curve curve with
    | .ok _ =>
        ([.setCurveOp curve], held_pwm, [.CurveSet curve.fan_id curve.sensor_id])
    | .error e => ([.setCurveOp curve], held_pwm, [.Error e.message])

/-- The `recv_timeout` dispatch (src/gui.rs lines 90–94): a timeout
synthesizes `Refresh`, a disconnect breaks the loop. -/
inductive RecvOutcome where
  | received (c : WorkerCommand)
  | timeout
  | disconnected

def commandOf : RecvOutcome → Option WorkerCommand
  | .received c => some c
  | .timeout => some .Refresh
  | .disconnected => none

lemma lookup_eraseKeyPwm (m : List (String × Nat)) (k : String) :
    (eraseKeyPwm m k).lookup k = none := by
  induction m with
  | nil => rfl
  | cons p rest ih =>
    obtain ⟨k', v⟩ := p
    by_cases h : k' = k
    · simpa [eraseKeyPwm, h] using ih
    · have hbne : (k' != k) = true := bne_iff_ne.mpr h
      have h2 : (k == k') = false := beq_eq_false_iff_ne.mpr (Ne.symm h)
      simp [eraseKeyPwm, List.filter_cons, hbne, List.lookup, h2, ih]
      exact fun a b _ hne hk => hne hk.symm

lemma lookup_insertPwm (m : List (String × Nat)) (k : String) (v : Nat) :
    (insertPwm m k v).lookup k = some v := by
  induction m with
  | nil => simp [insertPwm, List.lookup]
  | cons p rest ih =>
    obtain ⟨k', v'⟩ := p
    by_cases h : k' = k
    · subst h
      simp [insertPwm, List.lookup]
    · have h2 : (k == k') = false := beq_eq_false_iff_ne.mpr (Ne.symm h)
      simp [insertPwm, h, List.lookup, h2, ih]

/-- A controller whose every hardware write fails. -/
def failingCtrl : WorkerController :=
  { set_pwm := fun _ _ => .error (.Platform "hardware write failed"),
    discover := fun _ => .ok [],
    set_fan_curve := fun _ => .error (.Platform "hardware write failed") }

/-- A controller whose every operation succeeds. -/
def succeedingCtrl : WorkerController :=
  { set_pwm := fun _ _ => .ok (),
    discover := fun _ => .ok [],
    set_fan_curve := fun _ => .ok () }

/-- **C7, counterexample.** As stated the claim is false: processing
`SetPwm{fan_id, 0}` does not always remove `fan_id` from `held_pwm` — when the
underlying `controller.set_pwm` call fails, the source (src/gui.rs lines
118–135) leaves `held_pwm` untouched.  Concretely, with a controller whose
writes fail and `held_pwm = [("fan0", 150)]`, after processing
`SetPwm{fan0, 0}` the map still contains `fan0`. -/
theorem setpwm_zero_removal_counterexample :
    ¬ (∀ (ctrl : WorkerController) (held : List (String × Nat)) (fan_id : String),
        ((workerStep ctrl held (WorkerCommand.SetPwm fan_id 0)).2.1).lookup fan_id
          = none) := by
  intro h
  exact absurd (h failingCtrl [("fan0", 150)] "fan0") (by decide)

/-- **C7, amended.** When the underlying `set_pwm` call succeeds, processing
`SetPwm{fan_id, 0}` removes `fan_id` from `held_pwm` and a nonzero duty
inserts/updates it to that value; when the call fails, `held_pwm` is
unchanged.  In the concrete scenario (all writes succeeding), after
`SetPwm{fan0, 150}` then `SetPwm{fan0, 0}` the map no longer contains `fan0`
and the next poll issues no re-apply before its discover. -/
theorem setpwm_held_semantics (ctrl : WorkerController)
    (held : List (String × Nat)) (fan_id : String) (pwm : Nat) :
    (ctrl.set_pwm fan_id pwm = .ok () → pwm = 0 →
      ((workerStep ctrl held (.SetPwm fan_id pwm)).2.1).lookup fan_id = none)
    ∧ (ctrl.set_pwm fan_id pwm = .ok () → pwm ≠ 0 →
      ((workerStep ctrl held (.SetPwm fan_id pwm)).2.1).lookup fan_id = some pwm)
    ∧ (∀ e, ctrl.set_pwm fan_id pwm = .error e →
      (workerStep ctrl held (.SetPwm fan_id pwm)).2.1 = held)
    ∧ ((workerStep succeedingCtrl
          ((workerStep succeedingCtrl [] (.SetPwm "fan0" 150)).2.1)
          (.SetPwm "fan0" 0)).2.1).lookup "fan0" = none
    ∧ (workerStep succeedingCtrl
          ((workerStep succeedingCtrl
            ((workerStep succeedingCtrl [] (.SetPwm "fan0" 150)).2.1)
            (.SetPwm "fan0" 0)).2.1)
          .Refresh).1 = [HwOp.discoverOp] := by
  refine ⟨?_, ?_, ?_, by decide, by decide⟩
  · intro hok h0
    subst h0
    simp only [workerStep, hok]
    simp [lookup_eraseKeyPwm]
  · intro hok h0
    simp only [workerStep, hok]
    simp [h0, lookup_insertPwm]
  · intro e herr
    simp [workerStep, herr]

/-- Witness for `setpwm_held_semantics`: with the always-succeeding
controller and `held_pwm = [("fan0", 150)]`, processing `SetPwm{fan0, 0}`
leaves a map without `fan0`. -/
theorem setpwm_held_semantics_witness :
    ((workerStep succeedingCtrl [("fan0", 150)]
        (WorkerCommand.SetPwm "fan0" 0)).2.1).lookup "fan0" = none :=
  (setpwm_held_semantics succeedingCtrl [("fan0", 150)] "fan0" 0).1 rfl rfl

/-- **C8.** On every `Refresh` — user-sent, or synthesized by the 1.5 s
`recv_timeout` — the worker re-issues `set_pwm` for every `held_pwm` entry
and then discovers, and this trace is the same for every controller oracle:
no individual re-apply failure aborts the remaining re-applies or the
discover of that poll cycle. -/
theorem refresh_reapplies_held_before_discover :
    (∀ (ctrl : WorkerController) (held : List (String × Nat)),
      (workerStep ctrl held .Refresh).1
        = held.map (fun p => HwOp.setPwmOp p.1 p.2) ++ [HwOp.discoverOp])
    ∧ commandOf RecvOutcome.timeout = some WorkerCommand.Refresh := by
  constructor
  · intro ctrl held
    have hops : ∀ l, reapplyHeld ctrl l = l.map fun p => HwOp.setPwmOp p.1 p.2 := by
      intro l
      induction l with
      | nil => rfl
      | cons p rest ih =>
        obtain ⟨fan_id, pwm⟩ := p
        cases h : ctrl.set_pwm fan_id pwm <;> simp [reapplyHeld, h, ih]
    simp only [workerStep]
    cases h : ctrl.discover () <;> simp [hops]
  · rfl

end Fancontrol
